import Mathlib

/-!
Verification development for the imagine2api gateway.

The definitions below are a shallow embedding of the Python source:
* `src/app/services/sso_manager.py`   (file-backed credential pool)
* `src/app/services/grok_client.py`   (WebSocket protocol client and
  generation orchestrator)

Timestamps are modelled as integers (Python float seconds restricted to
whole values; every threshold the code compares against is integral), and
the fractional hybrid score and weighted random draw as exact rationals;
file and network I/O are abstracted away: the contents of the SSO source
file appear as a `List String` parameter, persisted JSON as a `SavedState`
value, the WebSocket stream as a list of `WsEvent`s, and the `weighted`
strategy's random draw as a supplied rational.  A base64 payload is
abstracted to its length (`blob_size`), which is the only attribute the
receive loop inspects.
-/

set_option linter.unusedVariables false

namespace Imagine2api

/-! ### Credential pool data model (`sso_manager.py`, `KeyUsage` / `SSOManager`) -/

/-- `KeyUsage` dataclass: per-token usage statistics.  Field defaults in the
Python source are `count=0, last_used=0, first_used=0, failed=False,
age_verified=0`. -/
structure KeyUsage where
  count : Nat
  last_used : ℤ
  first_used : ℤ
  failed : Bool
  age_verified : Nat
deriving DecidableEq, Repr

/-- `KeyUsage()` with all defaults. -/
def KeyUsage.init : KeyUsage :=
  { count := 0, last_used := 0, first_used := 0, failed := false, age_verified := 0 }

/-- Rotation strategies of `RotationStrategy` in the source. -/
inductive RotationStrategy
  | round_robin
  | least_used
  | least_recent
  | weighted
  | hybrid
deriving DecidableEq, Repr

/-- The mutable state of one `SSOManager` instance: token list, round-robin
cursor, the `_usage` dict (as an association list), `_last_reset`, the
configured strategy and `daily_limit`. -/
structure SSOState where
  sso_list : List String
  current_index : Nat
  usage : List (String × KeyUsage)
  last_reset : ℤ
  strategy : RotationStrategy
  daily_limit : Nat
deriving DecidableEq, Repr

/-- First-match association-list lookup, modelling Python dict access. -/
def lookupE {β : Type} : List (String × β) → String → Option β
  | [], _ => none
  | (k, v) :: rest, key => if k = key then some v else lookupE rest key

/-- Dict assignment `m[k] = v`: replace the (first) binding of `k` in place
if one exists, else append (Python dicts keep insertion order). -/
def setEntry {β : Type} : List (String × β) → String → β → List (String × β)
  | [], k, v => [(k, v)]
  | (k0, v0) :: rest, k, v =>
    if k0 = k then (k, v) :: rest else (k0, v0) :: setEntry rest k v

/-- `self._usage.get(sso, KeyUsage())`. -/
def getUsage (s : SSOState) (sso : String) : KeyUsage :=
  (lookupE s.usage sso).getD KeyUsage.init

/-- The availability test of `_get_available_keys`: not failed and below the
daily limit. -/
def isAvailable (s : SSOState) (sso : String) : Bool :=
  let u := getUsage s sso
  !u.failed && decide (u.count < s.daily_limit)

/-- `SSOManager._get_available_keys`. -/
def get_available_keys (s : SSOState) : List String :=
  s.sso_list.filter (fun sso => isAvailable s sso)

/-- The failed-flag clearing loop inside `_handle_all_exhausted`. -/
def clear_failed_flags (s : SSOState) : SSOState :=
  { s with usage := s.usage.map (fun p =>
      if p.1 ∈ s.sso_list then (p.1, { p.2 with failed := false }) else p) }

/-- `SSOManager._handle_all_exhausted`: if every token is marked failed,
clear all failed flags and return the first token of the list; otherwise
return `none`. -/
def handle_all_exhausted (s : SSOState) : Option String × SSOState :=
  if s.sso_list.all (fun sso => (getUsage s sso).failed) then
    (match s.sso_list with
     | [] => none
     | a :: _ => some a, clear_failed_flags s)
  else (none, s)

/-- `SSOManager._do_daily_reset`: zero counts and clear failed flags for all
listed tokens, set `_last_reset` to the current time. -/
def do_daily_reset (s : SSOState) (now : ℤ) : SSOState :=
  { s with
    usage := s.usage.map (fun p =>
      if p.1 ∈ s.sso_list then (p.1, { p.2 with count := 0, failed := false }) else p),
    last_reset := now }

/-- `SSOManager._check_daily_reset`: a zero `_last_reset` is initialised to
`now` without resetting; otherwise reset when 24h (86400s) have elapsed. -/
def check_daily_reset (s : SSOState) (now : ℤ) : SSOState :=
  if s.last_reset = 0 then { s with last_reset := now }
  else if now - s.last_reset ≥ (86400 : ℤ) then do_daily_reset s now
  else s

/-- `SSOManager._get_round_robin`. -/
def get_round_robin (s : SSOState) : Option String × SSOState :=
  match get_available_keys s with
  | [] => handle_all_exhausted s
  | a :: rest =>
    let avail := a :: rest
    let i := s.current_index % avail.length
    (some (avail.getD i a), { s with current_index := (i + 1) % avail.length })

/-- The scan of `_get_least_used` / `_get_least_recent`: running best element
and best value, starting from `float('inf')` (modelled as `none`). -/
def pickMinBy {α : Type} [LinearOrder α] (f : String → α) :
    List String → String → Option α → String
  | [], best, _ => best
  | x :: xs, best, bestVal =>
    match bestVal with
    | none => pickMinBy f xs x (some (f x))
    | some m => if f x < m then pickMinBy f xs x (some (f x)) else pickMinBy f xs best (some m)

/-- `SSOManager._get_least_used`. -/
def get_least_used (s : SSOState) : Option String × SSOState :=
  match get_available_keys s with
  | [] => handle_all_exhausted s
  | a :: rest => (some (pickMinBy (fun t => (getUsage s t).count) (a :: rest) a none), s)

/-- `SSOManager._get_least_recent`. -/
def get_least_recent (s : SSOState) : Option String × SSOState :=
  match get_available_keys s with
  | [] => handle_all_exhausted s
  | a :: rest => (some (pickMinBy (fun t => (getUsage s t).last_used) (a :: rest) a none), s)

/-- The cumulative-weight scan of `_get_weighted`. -/
def weightedPickLoop : List (String × Int) → ℚ → ℚ → Option String
  | [], _, _ => none
  | (t, w) :: rest, cumulative, r =>
    if r ≤ cumulative + (w : ℚ) then some t else weightedPickLoop rest (cumulative + (w : ℚ)) r

/-- `available[-1]` on a nonempty list. -/
def lastElemD : List String → String → String
  | [], d => d
  | [x], _ => x
  | _ :: y :: ys, d => lastElemD (y :: ys) d

/-- `SSOManager._get_weighted`; the random draw `random.uniform(0, total)` is
supplied as the parameter `rand`. -/
def get_weighted (s : SSOState) (rand : ℚ) : Option String × SSOState :=
  match get_available_keys s with
  | [] => handle_all_exhausted s
  | a :: rest =>
    let avail := a :: rest
    let pairs := avail.map (fun t => (t, max 1 ((s.daily_limit : Int) - ((getUsage s t).count : Int))))
    match weightedPickLoop pairs 0 rand with
    | some t => (some t, s)
    | none => (some (lastElemD avail a), s)

/-- The per-token score of `_get_hybrid` (`0.1` is modelled exactly as
`1/10`). -/
def hybridScore (s : SSOState) (now : ℤ) (sso : String) : ℚ :=
  let u := getUsage s sso
  let remaining : ℚ := (s.daily_limit : ℚ) - (u.count : ℚ)
  let time_factor : ℚ :=
    if u.last_used = 0 then 10 else min 10 (((now - u.last_used : ℤ) : ℚ) / 60 * (1 / 10))
  remaining * (1 + time_factor)

/-- The best-score scan of `_get_hybrid`, starting from `best_score = -1`. -/
def pickMaxScore (f : String → ℚ) : List String → String → ℚ → String
  | [], best, _ => best
  | x :: xs, best, bestVal =>
    if bestVal < f x then pickMaxScore f xs x (f x) else pickMaxScore f xs best bestVal

/-- `SSOManager._get_hybrid`. -/
def get_hybrid (s : SSOState) (now : ℤ) : Option String × SSOState :=
  match get_available_keys s with
  | [] => handle_all_exhausted s
  | a :: rest => (some (pickMaxScore (hybridScore s now) (a :: rest) a (-1)), s)

/-- The strategy dispatch inside `get_next_sso`. -/
def dispatch_strategy (s : SSOState) (now : ℤ) (rand : ℚ) : Option String × SSOState :=
  match s.strategy with
  | .round_robin => get_round_robin s
  | .least_used => get_least_used s
  | .least_recent => get_least_recent s
  | .weighted => get_weighted s rand
  | .hybrid => get_hybrid s now

/-- `SSOManager.get_next_sso`: empty pool yields `none`; otherwise the daily
reset check runs first and the configured strategy selects over the result.
(The lazy `load_sso_list` call is a no-op for an already-loaded manager.) -/
def get_next_sso (s : SSOState) (now : ℤ) (rand : ℚ) : Option String × SSOState :=
  if s.sso_list.isEmpty then (none, s)
  else dispatch_strategy (check_daily_reset s now) now rand

/-- `SSOManager.record_usage`; the `Bool` records whether `_save_state` was
invoked. -/
def record_usage (s : SSOState) (sso : String) (now : ℤ) : SSOState × Bool :=
  let u := getUsage s sso
  ({ s with usage := setEntry s.usage sso { u with count := u.count + 1, last_used := now } }, true)

/-- `SSOManager.mark_failed`; the `Bool` records whether `_save_state` was
invoked. -/
def mark_failed (s : SSOState) (sso : String) (reason : String) : SSOState × Bool :=
  let u := getUsage s sso
  ({ s with usage := setEntry s.usage sso { u with failed := true } }, true)

/-- `SSOManager.mark_success`: clears `failed` only when a usage record
exists; otherwise the state is untouched and nothing is saved. -/
def mark_success (s : SSOState) (sso : String) : SSOState × Bool :=
  match lookupE s.usage sso with
  | some u => ({ s with usage := setEntry s.usage sso { u with failed := false } }, true)
  | none => (s, false)

/-! ### Persistence (`_save_state` / `_load_state` / `reload`) -/

/-- The JSON document written by `_save_state`: reset timestamp, rotation
cursor, and a token-hash-keyed map of usage records. -/
structure SavedState where
  last_reset : ℤ
  current_index : Nat
  usage : List (String × KeyUsage)
deriving DecidableEq, Repr

/-- `SSOManager._save_state`, parameterised by the token hash `h`
(`_key_hash`, a truncated md5 in the source). -/
def save_state (h : String → String) (s : SSOState) : SavedState :=
  { last_reset := s.last_reset
    current_index := s.current_index
    usage := s.usage.map (fun p => (h p.1, p.2)) }

/-- The list-building half of `load_sso_list`: install the parsed token list
and initialise a fresh `KeyUsage` (with `first_used = now`) for any token
without one. -/
def load_tokens (s : SSOState) (tokens : List String) (now : ℤ) : SSOState :=
  { s with
    sso_list := tokens
    usage := tokens.foldl (fun acc t =>
      if (lookupE acc t).isSome then acc
      else acc ++ [(t, { KeyUsage.init with first_used := now })]) s.usage }

/-- The usage-restoring loop of `_load_state`: each persisted hash is matched
against the first token in the list with that hash. -/
def restore_usage (h : String → String) (s : SSOState) (entries : List (String × KeyUsage)) :
    SSOState :=
  entries.foldl (fun acc p =>
    match acc.sso_list.find? (fun sso => h sso == p.1) with
    | some sso => { acc with usage := setEntry acc.usage sso p.2 }
    | none => acc) s

/-- `SSOManager._load_state` on the parsed snapshot (`none` models a missing
state file). -/
def load_state (h : String → String) (s : SSOState) (saved : Option SavedState) (now : ℤ) :
    SSOState :=
  match saved with
  | none => s
  | some d =>
    let s1 := { s with last_reset := d.last_reset, current_index := d.current_index }
    if now - d.last_reset ≥ (86400 : ℤ) then do_daily_reset s1 now
    else restore_usage h s1 d.usage

/-- `SSOManager.reload`: clear the usage dict and cursor, then
`load_sso_list` (token list rebuild followed by `_load_state`). -/
def reload_manager (h : String → String) (s : SSOState) (tokens : List String)
    (saved : Option SavedState) (now : ℤ) : SSOState :=
  let s0 := { s with usage := [], current_index := 0 }
  load_state h (load_tokens s0 tokens now) saved now

/-! ### Protocol client (`grok_client.py`) -/

/-- Quality stage of one delivered image. -/
inductive Stage
  | preview
  | medium
  | final
deriving DecidableEq, Repr

/-- Numeric quality order on stages (preview < medium < final). -/
def stageRank : Stage → Nat
  | .preview => 0
  | .medium => 1
  | .final => 2

/-- Python's `str.endswith`: suffix test on the character sequence. -/
def strEndsWith (s suffix : String) : Bool :=
  suffix.data.isSuffixOf s.data

/-- `GrokImagineClient._is_final_image`: `.jpg` URL and payload length above
100000. -/
def is_final_image (url : String) (blob_size : Nat) : Bool :=
  strEndsWith url ".jpg" && decide (blob_size > 100000)

/-- The stage determination in `_do_generate` (final / medium at 30000 /
preview). -/
def classify_stage (url : String) (blob_size : Nat) : Stage :=
  if is_final_image url blob_size then .final
  else if blob_size > 30000 then .medium
  else .preview

/-- `ImageProgress` dataclass (the base64 blob is abstracted to its
length `blob_size`). -/
structure ImageProgress where
  image_id : String
  stage : Stage
  blob_size : Nat
  url : String
  is_final : Bool
deriving DecidableEq, Repr

/-- The `ImageProgress` value constructed for one delivery in
`_do_generate`. -/
def mk_delivery (image_id : String) (url : String) (blob_size : Nat) : ImageProgress :=
  { image_id := image_id
    stage := classify_stage url blob_size
    blob_size := blob_size
    url := url
    is_final := is_final_image url blob_size }

/-- `GenerationProgress` dataclass. -/
structure GenerationProgress where
  total : Nat
  images : List (String × ImageProgress)
  completed : Nat
deriving DecidableEq, Repr

/-- `len([img for img in images.values() if img.is_final])`. -/
def count_final (m : List (String × ImageProgress)) : Nat :=
  (m.filter (fun p => p.2.is_final)).length

/-- The local state of the receive loop in `_do_generate`. -/
structure LoopState where
  progress : GenerationProgress
  error_info : Option (String × String)
  last_activity : ℤ
  medium_received_time : Option ℤ
deriving DecidableEq, Repr

/-- Parsed content of one TEXT WebSocket message.  For an image message,
`image_id` is the result of `_extract_image_id(url)` (the UUID-before-
extension regex), carried here directly. -/
inductive TextContent
  | image (blob_size : Nat) (url : String) (image_id : Option String)
  | errorMsg (code : String) (msg : String)
  | otherText
deriving DecidableEq, Repr

/-- One iteration's input to the receive loop: a TEXT message at time `t`, a
CLOSED/ERROR frame, or an `asyncio.TimeoutError` from the 5-second
`wait_for` firing at time `t`. -/
inductive WsEvent
  | text (t : ℤ) (content : TextContent)
  | closedOrErr (t : ℤ)
  | idle (t : ℤ)
deriving DecidableEq, Repr

/-- Early returns out of the receive loop. -/
inductive EarlyResult
  | rateLimited (msg : String)
  | blockedResult
deriving DecidableEq, Repr

/-- Outcome of processing one event: continue looping, break out of the
loop (proceed to saving), or return early. -/
inductive StepOut
  | next (s : LoopState)
  | halt (s : LoopState)
  | ret (r : EarlyResult) (s : LoopState)
deriving DecidableEq, Repr

/-- The loop state carried by a `StepOut`. -/
def StepOut.state : StepOut → LoopState
  | .next s => s
  | .halt s => s
  | .ret _ s => s

/-- The two checks after the message-type dispatch, run for every processed
TEXT message: early completion (`completed >= n`) and the 15-second
blocked heuristic measured from the first medium delivery.  The Python
truthiness test `if medium_received_time` is modelled as `m ≠ 0`. -/
def post_checks (n : Nat) (s : LoopState) (t : ℤ) : StepOut :=
  if s.progress.completed ≥ n then .halt s
  else
    match s.medium_received_time with
    | some m =>
      if m ≠ 0 ∧ s.progress.completed = 0 ∧ t - m > 15 then .ret .blockedResult s
      else .next s
    | none => .next s

/-- Record one delivered image in the progress map: stamp the first medium
delivery time, then replace the stored entry unless it is already final,
recomputing the completed count. -/
def apply_delivery (s : LoopState) (t : ℤ) (blob_size : Nat) (url : String)
    (image_id : String) : LoopState :=
  let img := mk_delivery image_id url blob_size
  let s1 :=
    if img.stage = Stage.medium ∧ s.medium_received_time = none
    then { s with medium_received_time := some t } else s
  match lookupE s1.progress.images image_id with
  | some existing =>
    if existing.is_final then s1
    else
      let imgs := setEntry s1.progress.images image_id img
      { s1 with progress :=
          { s1.progress with images := imgs, completed := count_final imgs } }
  | none =>
    let imgs := setEntry s1.progress.images image_id img
    { s1 with progress :=
        { s1.progress with images := imgs, completed := count_final imgs } }

/-- One iteration of the receive loop of `_do_generate`.  An image message
whose id cannot be extracted executes `continue`, skipping `post_checks`;
a rate-limit error message returns immediately; an idle timeout applies
the 10-second blocked threshold and then the graceful-completion rule. -/
def step_event (n : Nat) (s : LoopState) (e : WsEvent) : StepOut :=
  match e with
  | .text t content =>
    let s := { s with last_activity := t }
    match content with
    | .image blob_size url image_id =>
      if blob_size ≠ 0 ∧ url ≠ "" then
        match image_id with
        | none => .next s
        | some idv => post_checks n (apply_delivery s t blob_size url idv) t
      else post_checks n s t
    | .errorMsg code msg =>
      let s := { s with error_info := some (code, msg) }
      if code = "rate_limit_exceeded" then .ret (.rateLimited msg) s
      else post_checks n s t
    | .otherText => post_checks n s t
  | .closedOrErr _ => .halt s
  | .idle t =>
    match s.medium_received_time with
    | some m =>
      if m ≠ 0 ∧ s.progress.completed = 0 ∧ t - m > 10 then .ret .blockedResult s
      else if s.progress.completed > 0 ∧ t - s.last_activity > 10 then .halt s
      else .next s
    | none =>
      if s.progress.completed > 0 ∧ t - s.last_activity > 10 then .halt s
      else .next s

/-- How the receive loop finished on a given event transcript. -/
inductive LoopOutcome
  | ended (s : LoopState)
  | completedLoop (s : LoopState)
  | early (r : EarlyResult) (s : LoopState)
deriving DecidableEq, Repr

/-- Run the receive loop over a transcript of events (all within the global
120-second deadline). -/
def run_loop (n : Nat) (s : LoopState) : List WsEvent → LoopOutcome
  | [] => .ended s
  | e :: es =>
    match step_event n s e with
    | .next s' => run_loop n s' es
    | .halt s' => .completedLoop s'
    | .ret r s' => .early r s'

/-- Initial loop state at the start of one attempt. -/
def initLoopState (n : Nat) (start : ℤ) : LoopState :=
  { progress := { total := n, images := [], completed := 0 }
    error_info := none
    last_activity := start
    medium_received_time := none }

/-- Spec-side helper (follows the spec's words, for comparison with the
source behaviour): the timestamp of the last delivery in a transcript that
classifies as medium stage. -/
def spec_last_medium_time (events : List WsEvent) : Option ℤ :=
  events.foldl (fun acc e =>
    match e with
    | .text t (.image bs url _) => if classify_stage url bs = Stage.medium then some t else acc
    | _ => acc) none

/-! ### Generation orchestrator (`GrokImagineClient.generate`) -/

/-- The abstract outcome of one `_do_generate` attempt, as observed by
`generate`: `ok` is a successful result dict, `failRes code msg` a failure
dict whose `result.get("error_code", "")` equals `code` (a connection error
caught inside `_do_generate` yields `code = ""`), and `raised` an exception
propagating out of the attempt. -/
inductive AttemptOutcome
  | ok
  | failRes (code : String) (msg : String)
  | raised (msg : String)
deriving DecidableEq, Repr

/-- The result dict returned by `generate` (`code = ""` models a missing
`error_code` field). -/
inductive GenResult
  | ok
  | err (code : String) (msg : String)
deriving DecidableEq, Repr

/-- Pool calls issued by `generate`, in order. -/
inductive PoolAction
  | markSuccess (sso : String)
  | recordUsage (sso : String)
  | markFailed (sso : String) (reason : String)
deriving DecidableEq, Repr

/-- The retry loop of `GrokImagineClient.generate`.  `attempts` supplies, per
iteration, the credential obtained (forced or from the pool; `none` means no
credential was available) and the attempt's outcome; `forced` records
whether the caller pinned a credential; `blocked_retries` and `last_error`
are the loop-carried counters.  Returns the result together with the pool
actions issued.  (The best-effort age-verification side calls do not affect
control flow and are omitted.) -/
def generate_loop (attempts : List (Option String × AttemptOutcome)) (forced : Bool)
    (blocked_retries : Nat) (last_error : Option GenResult) : GenResult × List PoolAction :=
  match attempts with
  | [] => (last_error.getD (.err "" "所有重试都失败了"), [])
  | (credOpt, outcome) :: rest =>
    match credOpt with
    | none => (.err "" "没有可用的 SSO", [])
    | some cred =>
      match outcome with
      | .ok => (.ok, [.markSuccess cred, .recordUsage cred])
      | .failRes code msg =>
        if code = "blocked" then
          let b := blocked_retries + 1
          if b ≥ 3 then
            (.err "blocked" "连续 3 次被 blocked，请稍后重试",
             [.markFailed cred "blocked - 无法生成最终图片"])
          else if forced then (.err code msg, [.markFailed cred "blocked - 无法生成最终图片"])
          else
            let r := generate_loop rest forced b last_error
            (r.1, .markFailed cred "blocked - 无法生成最终图片" :: r.2)
        else if code = "rate_limit_exceeded" ∨ code = "unauthorized" then
          if forced then (.err code msg, [.markFailed cred msg])
          else
            let r := generate_loop rest forced blocked_retries (some (.err code msg))
            (r.1, .markFailed cred msg :: r.2)
        else (.err code msg, [])
      | .raised msg =>
        if forced then (.err "" msg, [.markFailed cred msg])
        else
          let r := generate_loop rest forced blocked_retries (some (.err "" msg))
          (r.1, .markFailed cred msg :: r.2)

/-! ### Helper definitions for the theorems -/

/-- Did the receive loop end with an early `blocked` return? -/
def isEarlyBlocked : LoopOutcome → Bool
  | .early .blockedResult _ => true
  | _ => false

/-- Did this step return `blocked`? -/
def returnsBlocked : StepOut → Bool
  | .ret .blockedResult _ => true
  | _ => false

/-- The per-event condition under which the receive loop's blocked check
fires: 10 seconds past the first medium delivery `m` on the idle path, 15
seconds on the message path; a rate-limit error returns earlier, an image
whose id is unextractable skips the check, and a final-stage delivery
clears the no-final condition. -/
def blocked_check_fires (m : ℤ) (e : WsEvent) : Bool :=
  match e with
  | .idle t => decide (t - m > 10)
  | .text t c =>
    decide (t - m > 15) &&
    (match c with
     | .errorMsg code _ => decide (code ≠ "rate_limit_exceeded")
     | .image bs url idOpt =>
       (decide (bs = 0) || decide (url = "")) || (idOpt.isSome && !is_final_image url bs)
     | .otherText => true)
  | .closedOrErr _ => false

/-- `z` is the first element of `l` attaining the maximal value of `f`
(the spec's "highest score wins, ties broken by list order"). -/
def firstArgmax (f : String → ℚ) (l : List String) (z : String) : Prop :=
  ∃ i, i < l.length ∧ l.getD i z = z ∧
    (∀ j, j < l.length → f (l.getD j z) ≤ f z) ∧
    (∀ j, j < i → f (l.getD j z) < f z)

instance firstArgmaxDecidable (f : String → ℚ) (l : List String) (z : String) :
    Decidable (firstArgmax f l z) := by
  unfold firstArgmax
  infer_instance

/-- A predicate holding of the value inside a `some`. -/
def optHolds (P : String → Prop) : Option String → Prop
  | some z => P z
  | none => False

instance optHoldsDecidable (P : String → Prop) [DecidablePred P] (o : Option String) :
    Decidable (optHolds P o) := by
  cases o <;> unfold optHolds <;> infer_instance

/-! ### Concrete instances used in witnesses and counterexamples -/

/-- C2: two medium deliveries (t=100 and t=108) followed by an idle timeout
at t=111. -/
def c2_events : List WsEvent :=
  [ .text 100 (.image 50000 "u/a.png" (some "a"))
  , .text 108 (.image 50000 "u/b.png" (some "b"))
  , .idle 111 ]

/-- C2: witness state with a first medium delivery at t=100. -/
def c2w_state : LoopState :=
  { progress := { total := 4, images := [("a", mk_delivery "a" "u/a.png" 50000)], completed := 0 }
    error_info := none
    last_activity := 100
    medium_received_time := some 100 }

/-- C4: loop state holding a medium-stage (non-final) entry for image id
`a`. -/
def c4_state : LoopState :=
  { progress := { total := 4, images := [("a", mk_delivery "a" "u/a.png" 50000)], completed := 0 }
    error_info := none
    last_activity := 100
    medium_received_time := some 100 }

/-- C5: a pool whose `_last_reset` is still 0 while one token already has a
nonzero usage count (reachable by `record_usage` on a forced credential
before any `get_next_sso` call). -/
def c5_state : SSOState :=
  { sso_list := ["a"], current_index := 0
    usage := [("a", { count := 5, last_used := 0, first_used := 0, failed := false, age_verified := 0 })]
    last_reset := 0, strategy := .round_robin, daily_limit := 10 }

/-- C5 witness: same pool but with an initialised `_last_reset`. -/
def c5w_state : SSOState :=
  { c5_state with last_reset := 100 }

/-- C6: token `b` used five minutes before `now = 1000`, token `a` never
used, equal usage counts. -/
def c6_state : SSOState :=
  { sso_list := ["b", "a"], current_index := 0
    usage := [("b", { count := 2, last_used := 700, first_used := 1, failed := false, age_verified := 0 }),
              ("a", { count := 2, last_used := 0, first_used := 1, failed := false, age_verified := 0 })]
    last_reset := 500, strategy := .hybrid, daily_limit := 10 }

/-- C8: a pool with two tokens carrying distinct usage records. -/
def c8_state : SSOState :=
  { sso_list := ["t1", "t2"], current_index := 1
    usage := [("t1", { count := 3, last_used := 5, first_used := 1, failed := true, age_verified := 1 }),
              ("t2", { count := 7, last_used := 9, first_used := 2, failed := false, age_verified := 0 })]
    last_reset := 1000, strategy := .round_robin, daily_limit := 10 }

/-- C9: every token failed, and the first token is over quota (count 12 with
limit 10). -/
def c9_state : SSOState :=
  { sso_list := ["a", "b"], current_index := 0
    usage := [("a", { count := 12, last_used := 0, first_used := 0, failed := true, age_verified := 0 }),
              ("b", { count := 3, last_used := 0, first_used := 0, failed := true, age_verified := 0 })]
    last_reset := 5, strategy := .round_robin, daily_limit := 10 }

/-- C1 witness: one available token. -/
def c1w_state : SSOState :=
  { sso_list := ["a"], current_index := 0
    usage := [("a", { count := 1, last_used := 10, first_used := 1, failed := false, age_verified := 0 })]
    last_reset := 50, strategy := .round_robin, daily_limit := 10 }

/-- C10 witness: a pool whose usage dict has no record for token `b`. -/
def c10w_state : SSOState :=
  { sso_list := ["a", "b"], current_index := 0
    usage := [("a", { count := 1, last_used := 10, first_used := 1, failed := false, age_verified := 0 })]
    last_reset := 50, strategy := .hybrid, daily_limit := 10 }

/-! ### Association-list lemmas -/

theorem lookupE_eq_some_mem {β : Type} (m : List (String × β)) (k : String) (v : β)
    (h : lookupE m k = some v) : (k, v) ∈ m := by
  induction m with
  | nil => simp [lookupE] at h
  | cons p rest ih =>
    obtain ⟨k0, v0⟩ := p
    by_cases hk : k0 = k
    · subst hk
      simp [lookupE] at h
      simp [h]
    · simp [lookupE, hk] at h
      exact List.mem_cons_of_mem _ (ih h)

theorem lookupE_setEntry_self {β : Type} (m : List (String × β)) (k : String) (v : β) :
    lookupE (setEntry m k v) k = some v := by
  induction m with
  | nil => simp [setEntry, lookupE]
  | cons p rest ih =>
    obtain ⟨k0, v0⟩ := p
    by_cases hk : k0 = k
    · simp [setEntry, lookupE, hk]
    · simp [setEntry, lookupE, hk, ih]

theorem lookupE_setEntry_ne {β : Type} (m : List (String × β)) (k k' : String) (v : β)
    (h : k ≠ k') : lookupE (setEntry m k v) k' = lookupE m k' := by
  induction m with
  | nil => simp [setEntry, lookupE, h]
  | cons p rest ih =>
    obtain ⟨k0, v0⟩ := p
    by_cases hk : k0 = k
    · subst hk
      simp [setEntry, lookupE, h]
    · by_cases hk' : k0 = k'
      · subst hk'
        simp [setEntry, lookupE, hk, Ne.symm h]
      · simp [setEntry, lookupE, hk, hk', ih]

theorem lookupE_map_cond {β : Type} (m : List (String × β)) (L : List String) (g : β → β)
    (k : String) (hk : k ∈ L) :
    lookupE (m.map (fun p => if p.1 ∈ L then (p.1, g p.2) else p)) k = (lookupE m k).map g := by
  induction m with
  | nil => simp [lookupE]
  | cons p rest ih =>
    obtain ⟨k0, v0⟩ := p
    simp only [List.map_cons]
    by_cases hmem : k0 ∈ L
    · rw [if_pos hmem]
      by_cases hk0 : k0 = k
      · subst hk0
        simp [lookupE]
      · simp [lookupE, hk0, ih]
    · rw [if_neg hmem]
      by_cases hk0 : k0 = k
      · subst hk0
        exact absurd hk hmem
      · simp [lookupE, hk0, ih]

/-! ### Membership lemmas for the selection scans -/

theorem pickMinBy_mem {α : Type} [LinearOrder α] (f : String → α) :
    ∀ (l : List String) (best : String) (bv : Option α),
      pickMinBy f l best bv ∈ best :: l := by
  intro l
  induction l with
  | nil => intro best bv; simp [pickMinBy]
  | cons x xs ih =>
    intro best bv
    cases bv with
    | none =>
      have := ih x (some (f x))
      simp only [pickMinBy]
      rcases List.mem_cons.mp this with h | h
      · simp [h]
      · simp [List.mem_cons_of_mem, h]
    | some m =>
      simp only [pickMinBy]
      by_cases hlt : f x < m
      · rw [if_pos hlt]
        rcases List.mem_cons.mp (ih x (some (f x))) with h | h
        · simp [h]
        · simp [List.mem_cons_of_mem, h]
      · rw [if_neg hlt]
        rcases List.mem_cons.mp (ih best (some m)) with h | h
        · simp [h]
        · simp [List.mem_cons_of_mem, h]

theorem pickMaxScore_mem (f : String → ℚ) :
    ∀ (l : List String) (best : String) (bv : ℚ),
      pickMaxScore f l best bv ∈ best :: l := by
  intro l
  induction l with
  | nil => intro best bv; simp [pickMaxScore]
  | cons x xs ih =>
    intro best bv
    simp only [pickMaxScore]
    by_cases hlt : bv < f x
    · rw [if_pos hlt]
      rcases List.mem_cons.mp (ih x (f x)) with h | h
      · simp [h]
      · simp [List.mem_cons_of_mem, h]
    · rw [if_neg hlt]
      rcases List.mem_cons.mp (ih best bv) with h | h
      · simp [h]
      · simp [List.mem_cons_of_mem, h]

theorem weightedPickLoop_mem :
    ∀ (pairs : List (String × Int)) (c r : ℚ) (t : String),
      weightedPickLoop pairs c r = some t → t ∈ pairs.map Prod.fst := by
  intro pairs
  induction pairs with
  | nil => intro c r t h; simp [weightedPickLoop] at h
  | cons p rest ih =>
    intro c r t h
    obtain ⟨t0, w0⟩ := p
    simp only [weightedPickLoop] at h
    by_cases hle : r ≤ c + (w0 : ℚ)
    · rw [if_pos hle] at h
      simp at h
      simp [h]
    · rw [if_neg hle] at h
      exact List.mem_cons_of_mem _ (ih _ _ _ h)

theorem lastElemD_mem : ∀ (l : List String) (d : String), l ≠ [] → lastElemD l d ∈ l := by
  intro l
  induction l with
  | nil => intro d h; exact absurd rfl h
  | cons x xs ih =>
    intro d _
    cases xs with
    | nil => simp [lastElemD]
    | cons y ys =>
      have := ih d (by simp)
      simp only [lastElemD]
      exact List.mem_cons_of_mem _ this

theorem getD_mem : ∀ (l : List String) (i : Nat) (d : String), i < l.length → l.getD i d ∈ l := by
  intro l
  induction l with
  | nil => intro i d h; simp at h
  | cons x xs ih =>
    intro i d h
    cases i with
    | zero => simp
    | succ j =>
      simp only [List.getD_cons_succ]
      exact List.mem_cons_of_mem _ (ih j d (by simpa using h))

/-! ### Availability and state-preservation lemmas -/

theorem mem_available (s : SSOState) (t : String) (h : t ∈ get_available_keys s) :
    (getUsage s t).failed = false ∧ (getUsage s t).count < s.daily_limit := by
  unfold get_available_keys at h
  rw [List.mem_filter] at h
  obtain ⟨-, h2⟩ := h
  unfold isAvailable at h2
  simp only [Bool.and_eq_true, Bool.not_eq_true', decide_eq_true_eq] at h2
  exact h2

theorem available_sublist (s : SSOState) (t : String) (h : t ∈ get_available_keys s) :
    t ∈ s.sso_list := by
  unfold get_available_keys at h
  exact (List.mem_filter.mp h).1

theorem check_daily_reset_sso_list (s : SSOState) (now : ℤ) :
    (check_daily_reset s now).sso_list = s.sso_list := by
  unfold check_daily_reset do_daily_reset
  split_ifs <;> rfl

theorem check_daily_reset_daily_limit (s : SSOState) (now : ℤ) :
    (check_daily_reset s now).daily_limit = s.daily_limit := by
  unfold check_daily_reset do_daily_reset
  split_ifs <;> rfl

theorem check_daily_reset_strategy (s : SSOState) (now : ℤ) :
    (check_daily_reset s now).strategy = s.strategy := by
  unfold check_daily_reset do_daily_reset
  split_ifs <;> rfl

theorem handle_all_exhausted_fst_some (s : SSOState) (t : String)
    (h : (handle_all_exhausted s).1 = some t) :
    ∀ u ∈ s.sso_list, (getUsage s u).failed = true := by
  unfold handle_all_exhausted at h
  by_cases hall : s.sso_list.all (fun sso => (getUsage s sso).failed) = true
  · exact fun u hu => List.all_eq_true.mp hall u hu
  · rw [if_neg hall] at h
    simp at h

/-! ### Claim theorems -/

/-- C7: stage classification is `final` iff the URL ends in `.jpg` and the
payload length exceeds 100000, else `medium` iff the length exceeds 30000,
else `preview`; in particular a `.jpg` delivery of length 150000 is final,
a non-`.jpg` delivery of length 50000 is medium, and a delivery of length
5000 is preview. -/
theorem c7_stage_classification :
    (∀ (url : String) (blob_size : Nat),
        (classify_stage url blob_size = Stage.final ↔
          (strEndsWith url ".jpg" = true ∧ blob_size > 100000))
      ∧ (classify_stage url blob_size = Stage.medium ↔
          (¬(strEndsWith url ".jpg" = true ∧ blob_size > 100000) ∧ blob_size > 30000))
      ∧ (classify_stage url blob_size = Stage.preview ↔
          (¬(strEndsWith url ".jpg" = true ∧ blob_size > 100000) ∧ ¬blob_size > 30000)))
    ∧ classify_stage "img.jpg" 150000 = Stage.final
    ∧ classify_stage "img.png" 50000 = Stage.medium
    ∧ classify_stage "img.png" 5000 = Stage.preview := by
  refine ⟨?_, by decide, by decide, by decide⟩
  intro url bs
  simp only [classify_stage, is_final_image, Bool.and_eq_true, decide_eq_true_eq]
  split_ifs with h1 h2 <;> refine ⟨?_, ?_, ?_⟩ <;> simp_all

/-- C2 counterexample: in a run with medium deliveries at t=100 and t=108
and an idle timeout at t=111, the loop aborts with `Blocked` although only
3 seconds (≤ 10) have passed since the *last* medium delivery — the idle
threshold is measured from the *first* medium delivery, contradicting the
claim as stated. -/
theorem c2_counterexample :
    isEarlyBlocked (run_loop 4 (initLoopState 4 99) c2_events) = true
    ∧ spec_last_medium_time c2_events = some 108
    ∧ ((111 : ℤ) - 108 ≤ 10) := by
  refine ⟨by decide, by decide, by decide⟩

/-- C3 counterexample: a first attempt ending in a connection error (a
failure dict with no `error_code`) makes `generate` return that failure
immediately with an empty pool-action trace — no `recordFailure` and no
second attempt, although another credential and outcome were available and
no forced credential was supplied. -/
theorem c3_counterexample :
    generate_loop
      [(some "a", .failRes "" "连接失败: Cannot connect to host"), (some "b", .ok)]
      false 0 none
      = (GenResult.err "" "连接失败: Cannot connect to host", []) := by
  decide

/-- C4 counterexample: an existing medium-stage (non-final) entry for image
id `a` is replaced by a later preview-stage delivery for the same id — the
stored stage decreases, contradicting the claim that updates never
decrease the quality stage. -/
theorem c4_counterexample :
    lookupE c4_state.progress.images "a" = some (mk_delivery "a" "u/a.png" 50000)
    ∧ (mk_delivery "a" "u/a.png" 50000).stage = Stage.medium
    ∧ lookupE ((step_event 4 c4_state
          (.text 101 (.image 5000 "u/a.png" (some "a")))).state).progress.images "a"
        = some (mk_delivery "a" "u/a.png" 5000)
    ∧ (mk_delivery "a" "u/a.png" 5000).stage = Stage.preview
    ∧ stageRank Stage.preview < stageRank Stage.medium := by
  refine ⟨by decide, by decide, by decide, by decide, by decide⟩

/-- C5 counterexample: with `_last_reset = 0` and a token already carrying
a usage count of 5, a `get_next_sso` call at a time at least 24h past
`_last_reset` selects the token without zeroing its count — the
initialisation branch of `_check_daily_reset` skips the reset. -/
theorem c5_counterexample :
    ((100000 : ℤ) - c5_state.last_reset ≥ 86400)
    ∧ (get_next_sso c5_state 100000 0).1 = some "a"
    ∧ (getUsage (get_next_sso c5_state 100000 0).2 "a").count = 5 := by
  refine ⟨by decide, by decide, by decide⟩

/-- C10: `mark_success` on a token with no usage record leaves the state
unchanged and does not persist, while `mark_failed` on such a token creates
a fresh default record with `failed = true` and persists it. -/
theorem c10_mark_on_absent (s : SSOState) (t reason : String)
    (h : lookupE s.usage t = none) :
    mark_success s t = (s, false)
    ∧ (mark_failed s t reason).2 = true
    ∧ getUsage (mark_failed s t reason).1 t =
        { count := 0, last_used := 0, first_used := 0, failed := true, age_verified := 0 } := by
  have hu : getUsage s t = KeyUsage.init := by
    unfold getUsage
    rw [h]
    rfl
  refine ⟨?_, rfl, ?_⟩
  · unfold mark_success
    rw [h]
  · show getUsage
      { s with usage := setEntry s.usage t { getUsage s t with failed := true } } t = _
    unfold getUsage
    simp only [lookupE_setEntry_self, Option.getD_some]
    rw [h]
    rfl

/-- C10 witness: token `b` has no record in `c10w_state`. -/
theorem c10_mark_on_absent_witness :
    lookupE c10w_state.usage "b" = none
    ∧ mark_success c10w_state "b" = (c10w_state, false)
    ∧ (mark_failed c10w_state "b" "unauthorized").2 = true
    ∧ getUsage (mark_failed c10w_state "b" "unauthorized").1 "b" =
        { count := 0, last_used := 0, first_used := 0, failed := true, age_verified := 0 } := by
  have h := c10_mark_on_absent c10w_state "b" "unauthorized" (by decide)
  exact ⟨by decide, h.1, h.2.1, h.2.2⟩

/-! ### Receive-loop lemmas for C2 and C4 -/

theorem mem_setEntry {β : Type} (m : List (String × β)) (k : String) (v : β) :
    ∀ p ∈ setEntry m k v, p = (k, v) ∨ p ∈ m := by
  induction m with
  | nil => intro p hp; simp [setEntry] at hp; simp [hp]
  | cons q rest ih =>
    obtain ⟨k0, v0⟩ := q
    intro p hp
    by_cases hk : k0 = k
    · rw [setEntry, if_pos hk] at hp
      rcases List.mem_cons.mp hp with h | h
      · exact Or.inl h
      · exact Or.inr (List.mem_cons_of_mem _ h)
    · rw [setEntry, if_neg hk] at hp
      rcases List.mem_cons.mp hp with h | h
      · exact Or.inr (by simp [h])
      · rcases ih p h with h' | h'
        · exact Or.inl h'
        · exact Or.inr (List.mem_cons_of_mem _ h')

theorem count_final_eq_zero_iff (m : List (String × ImageProgress)) :
    count_final m = 0 ↔ ∀ p ∈ m, p.2.is_final = false := by
  unfold count_final
  rw [List.length_eq_zero, List.filter_eq_nil_iff]
  simp

theorem count_final_setEntry_zero (m : List (String × ImageProgress)) (k : String)
    (v : ImageProgress) (hm : count_final m = 0) (hv : v.is_final = false) :
    count_final (setEntry m k v) = 0 := by
  rw [count_final_eq_zero_iff] at hm ⊢
  intro p hp
  rcases mem_setEntry m k v p hp with h | h
  · rw [h]; exact hv
  · exact hm p h

theorem post_checks_state (n : Nat) (s : LoopState) (t : ℤ) :
    (post_checks n s t).state = s := by
  unfold post_checks
  split
  · rfl
  · split
    · split <;> rfl
    · rfl

theorem post_checks_ret_blocked (n : Nat) (s : LoopState) (t m : ℤ)
    (hm : s.medium_received_time = some m) (hm0 : m ≠ 0)
    (hc : s.progress.completed = 0) (hn : 1 ≤ n) (h15 : t - m > 15) :
    post_checks n s t = .ret .blockedResult s := by
  unfold post_checks
  rw [hm, hc, if_neg (by omega : ¬ (0 ≥ n))]
  split
  · rename_i m' heq
    injection heq with heq'
    subst heq'
    rw [if_pos ⟨hm0, rfl, h15⟩]
  · rename_i heq
    exact absurd heq (by simp)

theorem apply_delivery_mrt_some (s : LoopState) (t : ℤ) (bs : Nat) (url idv : String)
    (m : ℤ) (hm : s.medium_received_time = some m) :
    (apply_delivery s t bs url idv).medium_received_time = some m := by
  simp only [apply_delivery]
  rw [if_neg (by simp [hm])]
  rcases hex : lookupE s.progress.images idv with _ | ex
  · simp only [hex]
    exact hm
  · simp only [hex]
    split_ifs
    · exact hm
    · exact hm

theorem apply_delivery_completed_zero (s : LoopState) (t : ℤ) (bs : Nat) (url idv : String)
    (hc : s.progress.completed = 0) (hcf : count_final s.progress.images = 0)
    (hnf : is_final_image url bs = false) :
    (apply_delivery s t bs url idv).progress.completed = 0 := by
  have hmkf : (mk_delivery idv url bs).is_final = false := hnf
  simp only [apply_delivery]
  by_cases hcond : (mk_delivery idv url bs).stage = Stage.medium ∧ s.medium_received_time = none
  · rw [if_pos hcond]
    rcases hex : lookupE s.progress.images idv with _ | ex
    · simp [hex, count_final_setEntry_zero _ _ _ hcf hmkf]
    · have hexf : ex.is_final = false :=
        (count_final_eq_zero_iff _).mp hcf _ (lookupE_eq_some_mem _ _ _ hex)
      simp [hex, hexf, hc, count_final_setEntry_zero _ _ _ hcf hmkf]
  · rw [if_neg hcond]
    rcases hex : lookupE s.progress.images idv with _ | ex
    · simp [hex, count_final_setEntry_zero _ _ _ hcf hmkf]
    · have hexf : ex.is_final = false :=
        (count_final_eq_zero_iff _).mp hcf _ (lookupE_eq_some_mem _ _ _ hex)
      simp [hex, hexf, hc, count_final_setEntry_zero _ _ _ hcf hmkf]

/-- C2 (amended): while no final-stage image has been produced, the receive
loop returns `Blocked` once more than 15 seconds have passed since the
*first* medium delivery, checked on every processed message (rate-limit
errors return earlier and a delivery with unextractable id skips the
check); on the idle-timeout path the threshold tightens to 10 seconds,
still measured from the *first* medium delivery. -/
theorem c2_blocked_thresholds (n : Nat) (s : LoopState) (m : ℤ) (e : WsEvent)
    (hm : s.medium_received_time = some m) (hm0 : m ≠ 0)
    (hc : s.progress.completed = 0)
    (hcf : count_final s.progress.images = 0)
    (hn : 1 ≤ n)
    (hfire : blocked_check_fires m e = true) :
    returnsBlocked (step_event n s e) = true := by
  cases e with
  | idle t =>
    have h10 : t - m > 10 := by
      simpa [blocked_check_fires] using hfire
    simp only [step_event, hm]
    rw [if_pos ⟨hm0, hc, h10⟩]
    rfl
  | closedOrErr t =>
    simp [blocked_check_fires] at hfire
  | text t c =>
    cases c with
    | otherText =>
      have h15 : t - m > 15 := by
        simpa [blocked_check_fires] using hfire
      simp only [step_event]
      rw [post_checks_ret_blocked n { s with last_activity := t } t m hm hm0 hc hn h15]
      rfl
    | errorMsg code msg =>
      obtain ⟨h15, hne⟩ : (t - m > 15) ∧ code ≠ "rate_limit_exceeded" := by
        simpa [blocked_check_fires] using hfire
      simp only [step_event]
      rw [if_neg hne]
      rw [post_checks_ret_blocked n
        { s with last_activity := t, error_info := some (code, msg) } t m hm hm0 hc hn h15]
      rfl
    | image bs url idOpt =>
      obtain ⟨h15, hrest⟩ :
          (t - m > 15) ∧ ((bs = 0 ∨ url = "") ∨ (idOpt.isSome ∧ is_final_image url bs = false)) := by
        simpa [blocked_check_fires, Bool.or_eq_true, Bool.and_eq_true] using hfire
      simp only [step_event]
      by_cases hbu : bs ≠ 0 ∧ url ≠ ""
      · rw [if_pos hbu]
        rcases hrest with hzero | ⟨hsome, hnf⟩
        · rcases hzero with h0 | h0
          · exact absurd h0 hbu.1
          · exact absurd h0 hbu.2
        · rcases idOpt with _ | idv
          · simp at hsome
          · have hm' := apply_delivery_mrt_some
              { s with last_activity := t } t bs url idv m hm
            have hc' := apply_delivery_completed_zero
              { s with last_activity := t } t bs url idv hc hcf hnf
            show returnsBlocked
              (post_checks n (apply_delivery { s with last_activity := t } t bs url idv) t) = true
            rw [post_checks_ret_blocked n _ t m hm' hm0 hc' hn h15]
            rfl
      · rw [if_neg hbu]
        rw [post_checks_ret_blocked n { s with last_activity := t } t m hm hm0 hc hn h15]
        rfl

/-- C2 witness: in `c2w_state` (first medium at t=100, no final yet) an idle
timeout at t=111 satisfies the hypotheses and the loop returns `Blocked`. -/
theorem c2_blocked_thresholds_witness :
    (c2w_state.medium_received_time = some 100 ∧ (100 : ℤ) ≠ 0
      ∧ c2w_state.progress.completed = 0
      ∧ count_final c2w_state.progress.images = 0
      ∧ 1 ≤ 4
      ∧ blocked_check_fires 100 (.idle 111) = true)
    ∧ returnsBlocked (step_event 4 c2w_state (.idle 111)) = true :=
  ⟨by decide,
   c2_blocked_thresholds 4 c2w_state 100 (.idle 111)
     (by decide) (by decide) (by decide) (by decide) (by decide) (by decide)⟩

/-- C3 (amended): an unexpected exception raised during an attempt makes
`generate` record failure on the credential and continue to the next
attempt (when no credential was forced); but a transport-level connection
error is caught inside the attempt and surfaces as a failure dict with no
`error_code`, which `generate` returns immediately without recording
failure and without retrying. -/
theorem c3_connection_error_vs_exception :
    (∀ (cred msg : String) (rest : List (Option String × AttemptOutcome))
        (forced : Bool) (b : Nat) (le : Option GenResult),
      generate_loop ((some cred, .failRes "" msg) :: rest) forced b le = (.err "" msg, []))
    ∧ (∀ (cred msg : String) (rest : List (Option String × AttemptOutcome))
        (b : Nat) (le : Option GenResult),
      generate_loop ((some cred, .raised msg) :: rest) false b le =
        ((generate_loop rest false b (some (.err "" msg))).1,
         .markFailed cred msg :: (generate_loop rest false b (some (.err "" msg))).2)) := by
  constructor
  · intro cred msg rest forced b le
    simp [generate_loop]
  · intro cred msg rest b le
    simp [generate_loop]

/-- C4 (amended): an entry whose `is_final` is true is never replaced, but a
non-final stored entry is replaced by any newer delivery for the same id —
including one of a lower stage. -/
theorem c4_final_never_replaced (n : Nat) (s : LoopState) (t : ℤ) (bs : Nat)
    (url idv : String) (ex : ImageProgress)
    (hbs : bs ≠ 0) (hurl : url ≠ "")
    (hex : lookupE s.progress.images idv = some ex) :
    (ex.is_final = true →
      lookupE ((step_event n s (.text t (.image bs url (some idv)))).state).progress.images idv
        = some ex)
    ∧ (ex.is_final = false →
      lookupE ((step_event n s (.text t (.image bs url (some idv)))).state).progress.images idv
        = some (mk_delivery idv url bs)) := by
  have hstep : (step_event n s (.text t (.image bs url (some idv)))).state =
      apply_delivery { s with last_activity := t } t bs url idv := by
    simp only [step_event]
    rw [if_pos ⟨hbs, hurl⟩]
    exact post_checks_state n _ t
  rw [hstep]
  have key : ∀ (s1 : LoopState), lookupE s1.progress.images idv = some ex →
      (ex.is_final = true →
        lookupE (apply_delivery s1 t bs url idv).progress.images idv = some ex)
      ∧ (ex.is_final = false →
        lookupE (apply_delivery s1 t bs url idv).progress.images idv
          = some (mk_delivery idv url bs)) := by
    intro s1 hex1
    constructor
    · intro hf
      simp only [apply_delivery]
      by_cases hcond : (mk_delivery idv url bs).stage = Stage.medium
          ∧ s1.medium_received_time = none
      · rw [if_pos hcond]
        simp [hex1, hf]
      · rw [if_neg hcond]
        simp [hex1, hf]
    · intro hnf
      simp only [apply_delivery]
      by_cases hcond : (mk_delivery idv url bs).stage = Stage.medium
          ∧ s1.medium_received_time = none
      · rw [if_pos hcond]
        simp [hex1, hnf, lookupE_setEntry_self]
      · rw [if_neg hcond]
        simp [hex1, hnf, lookupE_setEntry_self]
  exact key { s with last_activity := t } hex

/-- C4 witness: in `c4_state` the stored entry for id `a` is non-final and a
later preview delivery replaces it; had it been final it would have been
kept. -/
theorem c4_final_never_replaced_witness :
    ((5000 : Nat) ≠ 0 ∧ "u/a.png" ≠ ""
      ∧ lookupE c4_state.progress.images "a" = some (mk_delivery "a" "u/a.png" 50000))
    ∧ ((mk_delivery "a" "u/a.png" 50000).is_final = false →
      lookupE ((step_event 4 c4_state
          (.text 101 (.image 5000 "u/a.png" (some "a")))).state).progress.images "a"
        = some (mk_delivery "a" "u/a.png" 5000)) :=
  ⟨by decide,
   (c4_final_never_replaced 4 c4_state 101 5000 "u/a.png" "a"
      (mk_delivery "a" "u/a.png" 50000) (by decide) (by decide) (by decide)).2⟩

/-! ### Reset and exhaustion-recovery lemmas -/

theorem clear_failed_flags_failed (s : SSOState) (u : String) (hu : u ∈ s.sso_list) :
    (getUsage (clear_failed_flags s) u).failed = false := by
  unfold clear_failed_flags getUsage
  simp only
  rw [lookupE_map_cond s.usage s.sso_list (fun v => { v with failed := false }) u hu]
  rcases lookupE s.usage u with _ | v <;> simp [KeyUsage.init]

theorem available_nil_of_all_failed (s : SSOState)
    (hall : ∀ u ∈ s.sso_list, (getUsage s u).failed = true) :
    get_available_keys s = [] := by
  unfold get_available_keys
  rw [List.filter_eq_nil_iff]
  intro u hu
  unfold isAvailable
  simp [hall u hu]

theorem handle_all_exhausted_all (s : SSOState)
    (hall : ∀ u ∈ s.sso_list, (getUsage s u).failed = true) :
    handle_all_exhausted s =
      (match s.sso_list with
       | [] => none
       | a :: _ => some a, clear_failed_flags s) := by
  unfold handle_all_exhausted
  rw [if_pos (List.all_eq_true.mpr hall)]

theorem dispatch_all_failed (s : SSOState) (now : ℤ) (rand : ℚ)
    (havail : get_available_keys s = []) :
    dispatch_strategy s now rand = handle_all_exhausted s := by
  rcases hs : s.strategy <;>
    simp only [dispatch_strategy, hs, get_round_robin, get_least_used, get_least_recent,
      get_weighted, get_hybrid, havail]

theorem check_daily_reset_usage_of_not_due (s : SSOState) (now : ℤ)
    (hreset : s.last_reset = 0 ∨ now - s.last_reset < 86400) :
    (check_daily_reset s now).usage = s.usage := by
  unfold check_daily_reset
  rcases hreset with h0 | hwin
  · rw [if_pos h0]
  · by_cases h0 : s.last_reset = 0
    · rw [if_pos h0]
    · rw [if_neg h0, if_neg (by omega)]

/-- C5 (amended): provided `lastResetAt` is nonzero, if at least 24 hours
have elapsed at the start of a `selectNext` call, every token's usage count
is zeroed and failed flag cleared and `lastResetAt` advances to `now`
before any selection occurs (the strategy dispatch runs on the reset
state); a zero `lastResetAt` is instead initialised to `now` without
resetting. -/
theorem c5_daily_reset (s : SSOState) (now : ℤ)
    (h0 : s.last_reset ≠ 0) (helapsed : now - s.last_reset ≥ 86400) :
    (∀ u ∈ s.sso_list,
        (getUsage (check_daily_reset s now) u).count = 0
        ∧ (getUsage (check_daily_reset s now) u).failed = false)
    ∧ (check_daily_reset s now).last_reset = now
    ∧ (∀ rand : ℚ, s.sso_list.isEmpty = false →
        get_next_sso s now rand = dispatch_strategy (check_daily_reset s now) now rand) := by
  have hcheck : check_daily_reset s now = do_daily_reset s now := by
    unfold check_daily_reset
    rw [if_neg h0, if_pos helapsed]
  refine ⟨?_, ?_, ?_⟩
  · intro u hu
    rw [hcheck]
    unfold do_daily_reset getUsage
    simp only
    rw [lookupE_map_cond s.usage s.sso_list
      (fun v => { v with count := 0, failed := false }) u hu]
    rcases lookupE s.usage u with _ | v <;> simp [KeyUsage.init]
  · rw [hcheck]
    rfl
  · intro rand hne
    unfold get_next_sso
    rw [hne]
    simp

/-- C5 witness: `c5w_state` has a nonzero `lastResetAt` and 24 hours have
elapsed by `now = 100000`. -/
theorem c5_daily_reset_witness :
    (c5w_state.last_reset ≠ 0 ∧ (100000 : ℤ) - c5w_state.last_reset ≥ 86400)
    ∧ (∀ u ∈ c5w_state.sso_list,
        (getUsage (check_daily_reset c5w_state 100000) u).count = 0
        ∧ (getUsage (check_daily_reset c5w_state 100000) u).failed = false)
    ∧ (check_daily_reset c5w_state 100000).last_reset = 100000 :=
  ⟨by decide,
   (c5_daily_reset c5w_state 100000 (by decide) (by decide)).1,
   (c5_daily_reset c5w_state 100000 (by decide) (by decide)).2.1⟩

/-- C9: when every token is marked failed (and no daily reset is due),
`get_next_sso` under any strategy clears all failed flags and returns the
first token of the list without re-checking its quota; the witness
exhibits a returned token whose count is at or above the daily limit. -/
theorem c9_exhaustion_recovery (s : SSOState) (now : ℤ) (rand : ℚ)
    (hall : ∀ u ∈ s.sso_list, (getUsage s u).failed = true)
    (hne : s.sso_list ≠ [])
    (hreset : s.last_reset = 0 ∨ now - s.last_reset < 86400) :
    (get_next_sso s now rand).1 = some (s.sso_list.headD "")
    ∧ ∀ u ∈ s.sso_list, (getUsage (get_next_sso s now rand).2 u).failed = false := by
  have husage : (check_daily_reset s now).usage = s.usage :=
    check_daily_reset_usage_of_not_due s now hreset
  have hlist : (check_daily_reset s now).sso_list = s.sso_list :=
    check_daily_reset_sso_list s now
  have hget : ∀ u, getUsage (check_daily_reset s now) u = getUsage s u := by
    intro u
    unfold getUsage
    rw [husage]
  have hall1 : ∀ u ∈ (check_daily_reset s now).sso_list,
      (getUsage (check_daily_reset s now) u).failed = true := by
    rw [hlist]
    intro u hu
    rw [hget]
    exact hall u hu
  have havail := available_nil_of_all_failed _ hall1
  have hdisp := dispatch_all_failed (check_daily_reset s now) now rand havail
  have hexh := handle_all_exhausted_all _ hall1
  have hnemp : s.sso_list.isEmpty ≠ true := by
    cases hl : s.sso_list with
    | nil => exact absurd hl hne
    | cons a l => simp
  unfold get_next_sso
  rw [if_neg hnemp, hdisp, hexh]
  constructor
  · simp only
    rw [hlist]
    cases hl : s.sso_list with
    | nil => exact absurd hl hne
    | cons a l => simp
  · intro u hu
    simp only
    exact clear_failed_flags_failed _ u (by rw [hlist]; exact hu)

/-- C9 witness: in `c9_state` all tokens are failed and the first token is
over quota (count 12 ≥ limit 10); recovery still returns it and clears
every failed flag. -/
theorem c9_exhaustion_recovery_witness :
    ((∀ u ∈ c9_state.sso_list, (getUsage c9_state u).failed = true)
      ∧ c9_state.sso_list ≠ []
      ∧ (c9_state.last_reset = 0 ∨ (10 : ℤ) - c9_state.last_reset < 86400))
    ∧ (get_next_sso c9_state 10 0).1 = some (c9_state.sso_list.headD "")
    ∧ (getUsage c9_state "a").count ≥ c9_state.daily_limit
    ∧ (∀ u ∈ c9_state.sso_list, (getUsage (get_next_sso c9_state 10 0).2 u).failed = false) :=
  ⟨by decide,
   (c9_exhaustion_recovery c9_state 10 0 (by decide) (by decide) (by decide)).1,
   by decide,
   (c9_exhaustion_recovery c9_state 10 0 (by decide) (by decide) (by decide)).2⟩

/-! ### Per-strategy selection lemmas for C1 -/

theorem map_fst_pairing (l : List String) (g : String → Int) :
    (l.map (fun x => (x, g x))).map Prod.fst = l := by
  induction l with
  | nil => rfl
  | cons x xs ih => simp [ih]

theorem get_round_robin_some_mem (s : SSOState) (t : String)
    (h : (get_round_robin s).1 = some t) :
    t ∈ get_available_keys s ∨ ∀ u ∈ s.sso_list, (getUsage s u).failed = true := by
  unfold get_round_robin at h
  rcases ha : get_available_keys s with _ | ⟨a, rest⟩
  · rw [ha] at h
    exact Or.inr (handle_all_exhausted_fst_some s t h)
  · rw [ha] at h
    have h2 : some ((a :: rest).getD (s.current_index % (a :: rest).length) a) = some t := h
    left
    rw [← Option.some.inj h2]
    exact getD_mem (a :: rest) _ a (Nat.mod_lt _ (by simp))

theorem get_least_used_some_mem (s : SSOState) (t : String)
    (h : (get_least_used s).1 = some t) :
    t ∈ get_available_keys s ∨ ∀ u ∈ s.sso_list, (getUsage s u).failed = true := by
  unfold get_least_used at h
  rcases ha : get_available_keys s with _ | ⟨a, rest⟩
  · rw [ha] at h
    exact Or.inr (handle_all_exhausted_fst_some s t h)
  · rw [ha] at h
    have h2 : some (pickMinBy (fun u => (getUsage s u).count) (a :: rest) a none) = some t := h
    left
    rw [← Option.some.inj h2]
    rcases List.mem_cons.mp (pickMinBy_mem (fun u => (getUsage s u).count) (a :: rest) a none)
      with hm | hm
    · rw [hm]; exact List.mem_cons_self a rest
    · exact hm

theorem get_least_recent_some_mem (s : SSOState) (t : String)
    (h : (get_least_recent s).1 = some t) :
    t ∈ get_available_keys s ∨ ∀ u ∈ s.sso_list, (getUsage s u).failed = true := by
  unfold get_least_recent at h
  rcases ha : get_available_keys s with _ | ⟨a, rest⟩
  · rw [ha] at h
    exact Or.inr (handle_all_exhausted_fst_some s t h)
  · rw [ha] at h
    have h2 : some (pickMinBy (fun u => (getUsage s u).last_used) (a :: rest) a none) = some t := h
    left
    rw [← Option.some.inj h2]
    rcases List.mem_cons.mp (pickMinBy_mem (fun u => (getUsage s u).last_used) (a :: rest) a none)
      with hm | hm
    · rw [hm]; exact List.mem_cons_self a rest
    · exact hm

theorem get_hybrid_some_mem (s : SSOState) (now : ℤ) (t : String)
    (h : (get_hybrid s now).1 = some t) :
    t ∈ get_available_keys s ∨ ∀ u ∈ s.sso_list, (getUsage s u).failed = true := by
  unfold get_hybrid at h
  rcases ha : get_available_keys s with _ | ⟨a, rest⟩
  · rw [ha] at h
    exact Or.inr (handle_all_exhausted_fst_some s t h)
  · rw [ha] at h
    have h2 : some (pickMaxScore (hybridScore s now) (a :: rest) a (-1)) = some t := h
    left
    rw [← Option.some.inj h2]
    rcases List.mem_cons.mp (pickMaxScore_mem (hybridScore s now) (a :: rest) a (-1))
      with hm | hm
    · rw [hm]; exact List.mem_cons_self a rest
    · exact hm

theorem get_weighted_some_mem (s : SSOState) (rand : ℚ) (t : String)
    (h : (get_weighted s rand).1 = some t) :
    t ∈ get_available_keys s ∨ ∀ u ∈ s.sso_list, (getUsage s u).failed = true := by
  unfold get_weighted at h
  rcases ha : get_available_keys s with _ | ⟨a, rest⟩
  · rw [ha] at h
    exact Or.inr (handle_all_exhausted_fst_some s t h)
  · rw [ha] at h
    left
    have h3 : (match weightedPickLoop
        ((a :: rest).map fun u => (u, max 1 ((s.daily_limit : Int) - ((getUsage s u).count : Int))))
        0 rand with
        | some u => ((some u : Option String), s)
        | none => (some (lastElemD (a :: rest) a), s)).1 = some t := h
    rcases hw : weightedPickLoop
        ((a :: rest).map fun u => (u, max 1 ((s.daily_limit : Int) - ((getUsage s u).count : Int))))
        0 rand with _ | u
    · rw [hw] at h3
      have h2 : some (lastElemD (a :: rest) a) = some t := h3
      rw [← Option.some.inj h2]
      exact lastElemD_mem (a :: rest) a (by simp)
    · rw [hw] at h3
      have h2 : some u = some t := h3
      have hmem := weightedPickLoop_mem _ _ _ _ hw
      rw [map_fst_pairing] at hmem
      rw [← Option.some.inj h2]
      exact hmem

theorem dispatch_some_mem (s : SSOState) (now : ℤ) (rand : ℚ) (t : String)
    (h : (dispatch_strategy s now rand).1 = some t) :
    t ∈ get_available_keys s ∨ ∀ u ∈ s.sso_list, (getUsage s u).failed = true := by
  rcases hstrat : s.strategy with _ | _ | _ | _ | _
  · refine get_round_robin_some_mem s t ?_
    unfold dispatch_strategy at h
    rw [hstrat] at h
    exact h
  · refine get_least_used_some_mem s t ?_
    unfold dispatch_strategy at h
    rw [hstrat] at h
    exact h
  · refine get_least_recent_some_mem s t ?_
    unfold dispatch_strategy at h
    rw [hstrat] at h
    exact h
  · refine get_weighted_some_mem s rand t ?_
    unfold dispatch_strategy at h
    rw [hstrat] at h
    exact h
  · refine get_hybrid_some_mem s now t ?_
    unfold dispatch_strategy at h
    rw [hstrat] at h
    exact h

/-- C1: under every rotation strategy, a `get_next_sso` call that returns a
token returns one that (in the state seen by the selector, i.e. after the
daily-reset check) is not failed and strictly under the daily limit —
except on the exhaustion-recovery path, in which case every token of the
pool was marked failed. -/
theorem c1_select_available (s : SSOState) (now : ℤ) (rand : ℚ) (t : String)
    (h : (get_next_sso s now rand).1 = some t) :
    ((getUsage (check_daily_reset s now) t).failed = false
      ∧ (getUsage (check_daily_reset s now) t).count < s.daily_limit)
    ∨ (∀ u ∈ s.sso_list, (getUsage (check_daily_reset s now) u).failed = true) := by
  unfold get_next_sso at h
  by_cases hemp : s.sso_list.isEmpty
  · rw [if_pos hemp] at h
    simp at h
  · rw [if_neg hemp] at h
    rcases dispatch_some_mem (check_daily_reset s now) now rand t h with hmem | hall
    · left
      have hp := mem_available _ _ hmem
      rw [check_daily_reset_daily_limit] at hp
      exact hp
    · right
      intro u hu
      exact hall u (by rw [check_daily_reset_sso_list]; exact hu)

/-- C1 witness: a concrete pool with one available token; the call returns
it and the left disjunct holds. -/
theorem c1_select_available_witness :
    (get_next_sso c1w_state 100 0).1 = some "a"
    ∧ (((getUsage (check_daily_reset c1w_state 100) "a").failed = false
        ∧ (getUsage (check_daily_reset c1w_state 100) "a").count < c1w_state.daily_limit)
      ∨ (∀ u ∈ c1w_state.sso_list,
          (getUsage (check_daily_reset c1w_state 100) u).failed = true)) :=
  ⟨by decide, c1_select_available c1w_state 100 0 "a" (by decide)⟩

/-! ### Hybrid-strategy argmax lemmas for C6 -/

theorem pickMaxScore_spec (f : String → ℚ) :
    ∀ (l : List String) (best : String),
      firstArgmax f (best :: l) (pickMaxScore f l best (f best)) := by
  intro l
  induction l with
  | nil =>
    intro best
    refine ⟨0, by simp, by simp [pickMaxScore], ?_, ?_⟩
    · intro j hj
      have hj0 : j = 0 := by simpa using hj
      subst hj0
      simp [pickMaxScore]
    · intro j hj
      omega
  | cons x xs ih =>
    intro best
    simp only [pickMaxScore]
    by_cases hlt : f best < f x
    · rw [if_pos hlt]
      obtain ⟨i, hi, hgt, hmax, hstrict⟩ := ih x
      have hxz : f x ≤ f (pickMaxScore f xs x (f x)) := by
        have h0 := hmax 0 (by simp)
        simpa using h0
      refine ⟨i + 1, by simpa using hi, by simpa using hgt, ?_, ?_⟩
      · intro j hj
        cases j with
        | zero =>
          simpa using le_of_lt (lt_of_lt_of_le hlt hxz)
        | succ j' =>
          have := hmax j' (by simpa using hj)
          simpa using this
      · intro j hj
        cases j with
        | zero =>
          simpa using lt_of_lt_of_le hlt hxz
        | succ j' =>
          have := hstrict j' (by omega)
          simpa using this
    · rw [if_neg hlt]
      have hxle : f x ≤ f best := not_lt.mp hlt
      obtain ⟨i, hi, hgt, hmax, hstrict⟩ := ih best
      have hbz : f best ≤ f (pickMaxScore f xs best (f best)) := by
        have h0 := hmax 0 (by simp)
        simpa using h0
      cases i with
      | zero =>
        refine ⟨0, by simp, by simpa using hgt, ?_, ?_⟩
        · intro j hj
          cases j with
          | zero => simpa using hbz
          | succ j' =>
            cases j' with
            | zero => simpa using le_trans hxle hbz
            | succ j'' =>
              have := hmax (j'' + 1) (by simpa using hj)
              simpa using this
        · intro j hj
          omega
      | succ i' =>
        refine ⟨i' + 2, by simpa using hi, by simpa using hgt, ?_, ?_⟩
        · intro j hj
          cases j with
          | zero => simpa using hbz
          | succ j' =>
            cases j' with
            | zero => simpa using le_trans hxle hbz
            | succ j'' =>
              have := hmax (j'' + 1) (by simpa using hj)
              simpa using this
        · intro j hj
          cases j with
          | zero =>
            have := hstrict 0 (by omega)
            simpa using this
          | succ j' =>
            cases j' with
            | zero =>
              have := hstrict 0 (by omega)
              have hlt' := lt_of_le_of_lt hxle (by simpa using this)
              simpa using hlt'
            | succ j'' =>
              have := hstrict (j'' + 1) (by omega)
              simpa using this

theorem hybridScore_ge_one (s : SSOState) (now : ℤ) (u : String)
    (hcount : (getUsage s u).count < s.daily_limit)
    (hclock : (getUsage s u).last_used ≤ now) :
    1 ≤ hybridScore s now u := by
  unfold hybridScore
  simp only
  have hrem : (1 : ℚ) ≤ (s.daily_limit : ℚ) - ((getUsage s u).count : ℚ) := by
    have h1 : ((getUsage s u).count : ℚ) + 1 ≤ (s.daily_limit : ℚ) := by
      exact_mod_cast hcount
    linarith
  have htf : (0 : ℚ) ≤
      (if (getUsage s u).last_used = 0 then (10 : ℚ)
       else min 10 (((now - (getUsage s u).last_used : ℤ) : ℚ) / 60 * (1 / 10))) := by
    split_ifs with h0
    · norm_num
    · have hpos : (0 : ℚ) ≤ ((now - (getUsage s u).last_used : ℤ) : ℚ) := by
        exact_mod_cast sub_nonneg.mpr hclock
      have hx : (0 : ℚ) ≤ ((now - (getUsage s u).last_used : ℤ) : ℚ) / 60 * (1 / 10) := by
        positivity
      exact le_min (by norm_num) hx
  calc (1 : ℚ) = 1 * 1 := by ring
    _ ≤ ((s.daily_limit : ℚ) - ((getUsage s u).count : ℚ)) *
        (1 + (if (getUsage s u).last_used = 0 then (10 : ℚ)
              else min 10 (((now - (getUsage s u).last_used : ℤ) : ℚ) / 60 * (1 / 10)))) := by
      apply mul_le_mul hrem (by linarith) (by norm_num) (by linarith)

/-- C6: under the hybrid strategy, a `get_next_sso` call over a nonempty
available set (with no token last used in the future) returns the first
available token attaining the maximal score
`remaining * (1 + timeFactor)` — the highest score wins, ties broken by
list order. -/
theorem c6_hybrid_argmax (s : SSOState) (now : ℤ) (rand : ℚ)
    (hstrat : s.strategy = RotationStrategy.hybrid)
    (hne : get_available_keys (check_daily_reset s now) ≠ [])
    (hclock : ∀ u ∈ get_available_keys (check_daily_reset s now),
        (getUsage (check_daily_reset s now) u).last_used ≤ now) :
    optHolds
      (firstArgmax (hybridScore (check_daily_reset s now) now)
        (get_available_keys (check_daily_reset s now)))
      (get_next_sso s now rand).1 := by
  have hlist : (check_daily_reset s now).sso_list = s.sso_list := check_daily_reset_sso_list s now
  have hlistne : s.sso_list.isEmpty ≠ true := by
    intro hemp
    apply hne
    unfold get_available_keys
    rw [hlist, List.isEmpty_iff.mp hemp]
    rfl
  have hstrat1 : (check_daily_reset s now).strategy = RotationStrategy.hybrid := by
    rw [check_daily_reset_strategy, hstrat]
  unfold get_next_sso
  rw [if_neg hlistne]
  have hdisp : dispatch_strategy (check_daily_reset s now) now rand =
      get_hybrid (check_daily_reset s now) now := by
    unfold dispatch_strategy
    rw [hstrat1]
  rw [hdisp]
  unfold get_hybrid
  rcases ha : get_available_keys (check_daily_reset s now) with _ | ⟨a, rest⟩
  · exact absurd ha hne
  · have hamem : a ∈ get_available_keys (check_daily_reset s now) := by
      rw [ha]
      exact List.mem_cons_self a rest
    have hacount := (mem_available _ _ hamem).2
    have haclock := hclock a hamem
    have hge := hybridScore_ge_one (check_daily_reset s now) now a hacount haclock
    have hstep : pickMaxScore (hybridScore (check_daily_reset s now) now) (a :: rest) a (-1) =
        pickMaxScore (hybridScore (check_daily_reset s now) now) rest a
          (hybridScore (check_daily_reset s now) now a) := by
      simp only [pickMaxScore]
      rw [if_pos (by linarith)]
    simp only [optHolds]
    rw [hstep]
    exact pickMaxScore_spec (hybridScore (check_daily_reset s now) now) rest a

theorem c6_score_b : hybridScore c6_state 1000 "b" = 12 := by
  have hlb : getUsage c6_state "b" =
      { count := 2, last_used := 700, first_used := 1, failed := false, age_verified := 0 } := by
    decide
  have hd : c6_state.daily_limit = 10 := rfl
  simp only [hybridScore, hlb, hd]
  norm_num

theorem c6_score_a : hybridScore c6_state 1000 "a" = 88 := by
  have hla : getUsage c6_state "a" =
      { count := 2, last_used := 0, first_used := 1, failed := false, age_verified := 0 } := by
    decide
  have hd : c6_state.daily_limit = 10 := rfl
  simp only [hybridScore, hla, hd]
  norm_num

theorem c6_selects_never_used : (get_next_sso c6_state 1000 0).1 = some "a" := by
  have hcheck : check_daily_reset c6_state 1000 = c6_state := by decide
  have ha : get_available_keys c6_state = ["b", "a"] := by decide
  unfold get_next_sso
  rw [if_neg (by decide : ¬ c6_state.sso_list.isEmpty = true), hcheck]
  have hdisp : dispatch_strategy c6_state 1000 0 = get_hybrid c6_state 1000 := by
    unfold dispatch_strategy
    rw [(by decide : c6_state.strategy = RotationStrategy.hybrid)]
  rw [hdisp]
  unfold get_hybrid
  rw [ha]
  have hpick : pickMaxScore (hybridScore c6_state 1000) ["b", "a"] "b" (-1) = "a" := by
    simp only [pickMaxScore, c6_score_b, c6_score_a]
    norm_num
  simp only [hpick]

/-- C6 witness: in `c6_state` both tokens have count 2, `b` was used five
minutes before `now = 1000` (score 12) and `a` was never used (score 88);
the hypotheses hold and the call selects the never-used token `a`. -/
theorem c6_hybrid_argmax_witness :
    (c6_state.strategy = RotationStrategy.hybrid
      ∧ get_available_keys (check_daily_reset c6_state 1000) ≠ []
      ∧ (∀ u ∈ get_available_keys (check_daily_reset c6_state 1000),
          (getUsage (check_daily_reset c6_state 1000) u).last_used ≤ 1000))
    ∧ optHolds
        (firstArgmax (hybridScore (check_daily_reset c6_state 1000) 1000)
          (get_available_keys (check_daily_reset c6_state 1000)))
        (get_next_sso c6_state 1000 0).1
    ∧ (get_next_sso c6_state 1000 0).1 = some "a" :=
  ⟨⟨by decide, by decide, by decide⟩,
   c6_hybrid_argmax c6_state 1000 0 (by decide) (by decide) (by decide),
   c6_selects_never_used⟩

/-! ### Persistence round-trip lemmas for C8 -/

theorem find?_hash_self (hf : String → String) :
    ∀ (L : List String) (k : String), k ∈ L → (∀ x ∈ L, hf x = hf k → x = k) →
      L.find? (fun sso => hf sso == hf k) = some k := by
  intro L
  induction L with
  | nil => intro k hk _; simp at hk
  | cons a rest ih =>
    intro k hk huniq
    by_cases hak : hf a = hf k
    · have ha : a = k := huniq a (by simp) hak
      subst ha
      rw [List.find?_cons_of_pos _ (by simp)]
    · have hk' : k ∈ rest := by
        rcases List.mem_cons.mp hk with h1 | h1
        · subst h1; exact absurd rfl hak
        · exact h1
      rw [List.find?_cons_of_neg _ (by simp [hak])]
      exact ih k hk' (fun x hx => huniq x (List.mem_cons_of_mem _ hx))

theorem restore_usage_fold (hf : String → String) (L : List String)
    (hinj : ∀ x ∈ L, ∀ y ∈ L, hf x = hf y → x = y) :
    ∀ (entries : List (String × KeyUsage)) (acc : SSOState),
      acc.sso_list = L → (∀ p ∈ entries, p.1 ∈ L) →
      restore_usage hf acc (entries.map (fun p => (hf p.1, p.2))) =
        { acc with usage := entries.foldl (fun u p => setEntry u p.1 p.2) acc.usage } := by
  intro entries
  induction entries with
  | nil =>
    intro acc hacc hmem
    rfl
  | cons p rest ih =>
    intro acc hacc hmem
    obtain ⟨k, v⟩ := p
    have hkL : k ∈ L := hmem (k, v) (by simp)
    have hfind : acc.sso_list.find? (fun sso => hf sso == hf k) = some k := by
      rw [hacc]
      exact find?_hash_self hf L k hkL (fun x hx hxy => hinj x hx k hkL hxy)
    simp only [List.map_cons, restore_usage, List.foldl_cons]
    rw [hfind]
    have := ih { acc with usage := setEntry acc.usage k v } (by simpa using hacc)
      (fun q hq => hmem q (List.mem_cons_of_mem _ hq))
    simp only [restore_usage] at this
    exact this

theorem lookupE_foldl_setEntry_not_mem {β : Type} :
    ∀ (entries : List (String × β)) (init : List (String × β)) (k : String),
      (∀ p ∈ entries, p.1 ≠ k) →
      lookupE (entries.foldl (fun u p => setEntry u p.1 p.2) init) k = lookupE init k := by
  intro entries
  induction entries with
  | nil => intro init k _; rfl
  | cons p rest ih =>
    intro init k hk
    simp only [List.foldl_cons]
    rw [ih _ k (fun q hq => hk q (List.mem_cons_of_mem _ hq))]
    exact lookupE_setEntry_ne init p.1 k p.2 (hk p (by simp))

theorem lookupE_foldl_setEntry {β : Type} :
    ∀ (entries : List (String × β)) (init : List (String × β)) (k : String) (v : β),
      (entries.map Prod.fst).Nodup → (k, v) ∈ entries →
      lookupE (entries.foldl (fun u p => setEntry u p.1 p.2) init) k = some v := by
  intro entries
  induction entries with
  | nil => intro init k v _ hmem; simp at hmem
  | cons p rest ih =>
    intro init k v hnodup hmem
    obtain ⟨k0, v0⟩ := p
    simp only [List.foldl_cons]
    rcases List.mem_cons.mp hmem with heq | hmem'
    · injection heq with hk hv
      subst hk
      subst hv
      have hnotin : k ∉ rest.map Prod.fst :=
        (List.nodup_cons.mp (by simpa using hnodup)).1
      have hk : ∀ q ∈ rest, q.1 ≠ k := by
        intro q hq hqk
        exact hnotin (by rw [← hqk]; exact List.mem_map_of_mem Prod.fst hq)
      rw [lookupE_foldl_setEntry_not_mem rest _ k hk]
      exact lookupE_setEntry_self init k v
    · exact ih _ k v (List.nodup_cons.mp (by simpa using hnodup)).2 hmem'

/-- C8: for the file backend, saving the pool state and reloading it with
the same token list, within the 24-hour window, with a collision-free token
hash whose recorded tokens are all still present, restores the rotation
cursor, the reset timestamp, and every persisted usage record (count,
last_used, first_used, failed, age_verified) exactly. -/
theorem c8_roundtrip (hf : String → String) (s : SSOState) (now : ℤ)
    (hinj : ∀ x ∈ s.sso_list, ∀ y ∈ s.sso_list, hf x = hf y → x = y)
    (hsub : ∀ p ∈ s.usage, p.1 ∈ s.sso_list)
    (hnodup : (s.usage.map Prod.fst).Nodup)
    (hwin : now - s.last_reset < 86400) :
    (reload_manager hf s s.sso_list (some (save_state hf s)) now).current_index
        = s.current_index
    ∧ (reload_manager hf s s.sso_list (some (save_state hf s)) now).last_reset = s.last_reset
    ∧ (reload_manager hf s s.sso_list (some (save_state hf s)) now).sso_list = s.sso_list
    ∧ ∀ (k : String) (v : KeyUsage), lookupE s.usage k = some v →
        lookupE (reload_manager hf s s.sso_list (some (save_state hf s)) now).usage k
          = some v := by
  have hmain : reload_manager hf s s.sso_list (some (save_state hf s)) now =
      { load_tokens { s with usage := [], current_index := 0 } s.sso_list now with
          last_reset := s.last_reset
          current_index := s.current_index
          usage := s.usage.foldl (fun u p => setEntry u p.1 p.2)
            (load_tokens { s with usage := [], current_index := 0 } s.sso_list now).usage } := by
    simp only [reload_manager, load_state, save_state]
    rw [if_neg (by omega : ¬ (now - s.last_reset ≥ 86400))]
    have hres := restore_usage_fold hf s.sso_list hinj s.usage
      { load_tokens { s with usage := [], current_index := 0 } s.sso_list now with
          last_reset := s.last_reset, current_index := s.current_index }
      (by rfl) hsub
    exact hres
  rw [hmain]
  refine ⟨rfl, rfl, rfl, ?_⟩
  intro k v hkv
  exact lookupE_foldl_setEntry s.usage _ k v hnodup (lookupE_eq_some_mem _ _ _ hkv)

/-- C8 witness: `c8_state` with the identity as token hash round-trips; the
cursor and both tokens' usage records come back unchanged. -/
theorem c8_roundtrip_witness :
    ((∀ x ∈ c8_state.sso_list, ∀ y ∈ c8_state.sso_list,
        (fun z : String => z) x = (fun z : String => z) y → x = y)
      ∧ (∀ p ∈ c8_state.usage, p.1 ∈ c8_state.sso_list)
      ∧ (c8_state.usage.map Prod.fst).Nodup
      ∧ (2000 : ℤ) - c8_state.last_reset < 86400
      ∧ lookupE c8_state.usage "t1" =
          some { count := 3, last_used := 5, first_used := 1, failed := true, age_verified := 1 })
    ∧ (reload_manager (fun z : String => z) c8_state c8_state.sso_list
        (some (save_state (fun z : String => z) c8_state)) 2000).current_index
        = c8_state.current_index
    ∧ (reload_manager (fun z : String => z) c8_state c8_state.sso_list
        (some (save_state (fun z : String => z) c8_state)) 2000).last_reset
        = c8_state.last_reset
    ∧ lookupE (reload_manager (fun z : String => z) c8_state c8_state.sso_list
        (some (save_state (fun z : String => z) c8_state)) 2000).usage "t1"
        = some { count := 3, last_used := 5, first_used := 1, failed := true, age_verified := 1 } :=
  ⟨by decide,
   (c8_roundtrip (fun z : String => z) c8_state 2000
     (by decide) (by decide) (by decide) (by decide)).1,
   (c8_roundtrip (fun z : String => z) c8_state 2000
     (by decide) (by decide) (by decide) (by decide)).2.1,
   (c8_roundtrip (fun z : String => z) c8_state 2000
     (by decide) (by decide) (by decide) (by decide)).2.2.2 "t1"
     { count := 3, last_used := 5, first_used := 1, failed := true, age_verified := 1 }
     (by decide)⟩

end Imagine2api
